import Mathlib

/-!
Shallow embedding of the FastScrollView virtual-scrolling engine
(src/src/index.js).  The repository source bundles three successive
iterations of the `FastScrollView` class, separated by document markers:

* v1 (lines 1-794): a DOM-measured engine without a height cache;
* v2 (lines 795-1550): an engine with `itemHeights`/`itemPositions` caches;
* v3 (lines 1551-2409): the current engine with batched expansion
  (`_expandDown`/`_expandUp`), fixed-size spacers and jump-to-item.

Host abstraction: the browser DOM is modelled as an oracle.  A node
created for index `i` measures `hmeas i` pixels (`element.offsetHeight`),
the viewport extent is `containerH` (`container.clientHeight`), and the
content container is the list `nodes` of `(data-index, height)` pairs in
document order.  JavaScript truthiness of an item is abstracted by a
predicate `truthy : α → Bool` (`if (!item) ...` in the source); an
out-of-range read `this.items[i]` yields `undefined`, modelled by
`List.get?` returning `none`.  Asynchronous parts (requestAnimationFrame
callbacks that only re-assign `scrollTop` or re-run `updateSpacers`) are
modelled as settled synchronously where a claim needs them and noted in
comments where they are omitted.  Heights and scroll offsets are natural
numbers of pixels; the window indices `renderedStartIndex` and
`renderedEndIndex` are integers because the source uses `-1` as the
"nothing materialized yet" sentinel.
-/

namespace FastScrollView

/-- Configuration of the v3 engine: `options.bufferThreshold` (default 2),
`options.align === 'bottom'`, and `options.batchSize || 10`. -/
structure Config where
  bufferThreshold : ℕ
  alignBottom : Bool
  batchSize : ℕ
deriving DecidableEq

/-- Host-supplied geometry: `container.clientHeight` and the measured
`offsetHeight` of the node rendered for a given index. -/
structure Host where
  containerH : ℕ
  hmeas : ℕ → ℕ

/-- State of a v3 `FastScrollView` instance.  `nodes` is the children list
of `contentContainer` as `(data-index, offsetHeight)` pairs; `topSpacerH`
and `bottomSpacerH` are the spacer heights; `scrollTop` is
`container.scrollTop`. -/
structure EngineState (α : Type) where
  items : List α
  renderedStartIndex : ℤ
  renderedEndIndex : ℤ
  scrollTop : ℕ
  topSpacerH : ℕ
  bottomSpacerH : ℕ
  nodes : List (ℕ × ℕ)
  batchUpdateMode : Bool
deriving DecidableEq

/-- The fragment built by `_renderItems(startIndex, endIndex)` (v3, lines
1956-1965): one node per index in `[s, e)` whose item is present and
truthy (`if (!item) continue;`). -/
def renderItemsFrag (truthy : α → Bool) (hmeas : ℕ → ℕ) (items : List α)
    (s e : ℕ) : List (ℕ × ℕ) :=
  (List.range' s (e - s)).filterMap fun i =>
    match items.get? i with
    | some x => if truthy x then some (i, hmeas i) else none
    | none => none

/-- The value of `_measureHeight(startIndex, endIndex)` (v3, lines
1731-1740) right after the batch `[s, e)` was rendered: the sum of
`offsetHeight` over the elements that exist, i.e. over the freshly
rendered fragment (an index whose item is falsy has no element and
contributes 0). -/
def measureRange (truthy : α → Bool) (hmeas : ℕ → ℕ) (items : List α)
    (s e : ℕ) : ℕ :=
  ((renderItemsFrag truthy hmeas items s e).map Prod.snd).sum

/-- The `contentContainer.offsetHeight` reading: total height of the
currently mounted nodes. -/
def contentHeight (st : EngineState α) : ℕ :=
  (st.nodes.map Prod.snd).sum

/-- Loop body of `_expandDown(targetHeight)` (v3, lines 1691-1704):
`while (renderedEndIndex < items.length && accumulatedHeight < targetHeight)`
advance `renderedEndIndex` to `min(renderedEndIndex + batchSize, length)`
and accumulate the measured batch height `mh e batchEnd`.  The loop is
driven by explicit gas; `gas = len - e` always suffices because each
iteration advances `e` by at least one (the JavaScript loop diverges when
`batchSize = 0`, hence the `0 < bs` conjunct in the guard; all theorems
below assume a positive batch size).  Returns
`(new renderedEndIndex, accumulatedHeight, number of iterations)`. -/
def expandDownGo (bs : ℕ) (mh : ℕ → ℕ → ℕ) (len target : ℕ) :
    ℕ → ℕ → ℕ → ℕ × ℕ × ℕ
  | 0, e, acc => (e, acc, 0)
  | gas + 1, e, acc =>
    if e < len ∧ acc < target ∧ 0 < bs then
      let be := min (e + bs) len
      let r := expandDownGo bs mh len target gas be (acc + mh e be)
      (r.1, r.2.1, r.2.2 + 1)
    else (e, acc, 0)

/-- `_expandDown(targetHeight)` starting from `renderedEndIndex = e`,
run with sufficient gas. -/
def expandDown (bs : ℕ) (mh : ℕ → ℕ → ℕ) (len e target : ℕ) : ℕ × ℕ × ℕ :=
  expandDownGo bs mh len target (len - e) e 0

/-- Loop body of `_expandUp(targetHeight)` (v3, lines 1711-1729):
`while (renderedStartIndex > 0 && accumulatedHeight < targetHeight)` move
`renderedStartIndex` to `max(0, renderedStartIndex - batchSize)` (natural
subtraction) and accumulate the measured batch height.  Gas `s`
suffices. -/
def expandUpGo (bs : ℕ) (mh : ℕ → ℕ → ℕ) (target : ℕ) :
    ℕ → ℕ → ℕ → ℕ × ℕ × ℕ
  | 0, s, acc => (s, acc, 0)
  | gas + 1, s, acc =>
    if 0 < s ∧ acc < target ∧ 0 < bs then
      let bStart := s - bs
      let r := expandUpGo bs mh target gas bStart (acc + mh bStart s)
      (r.1, r.2.1, r.2.2 + 1)
    else (s, acc, 0)

/-- `_expandUp(targetHeight)` starting from `renderedStartIndex = s`. -/
def expandUp (bs : ℕ) (mh : ℕ → ℕ → ℕ) (s target : ℕ) : ℕ × ℕ × ℕ :=
  expandUpGo bs mh target s s 0

/-- Inner measuring loop of `findStartIndexByRendering` (v3, lines
1891-1903) over the batch indices `[j, j + n)`: every in-range index has
an element here (this path renders every defined item, falsy or not,
lines 1882-1888), so its height is read and compared; returns the first
`j` with `currentTop + height > scrollTop` or the accumulated top. -/
def findInBatch (hmeas : ℕ → ℕ) (scrollTop : ℕ) :
    ℕ → ℕ → ℕ → Option ℕ × ℕ
  | 0, _, curTop => (none, curTop)
  | n + 1, j, curTop =>
    let h := hmeas j
    if scrollTop < curTop + h then (some j, curTop)
    else findInBatch hmeas scrollTop n (j + 1) (curTop + h)

/-- Outer batch loop of `findStartIndexByRendering(scrollTop)` (v3, lines
1870-1912): `for (i = 0; i < len; i += batchSize)`; the fallback value is
`Math.max(0, this.items.length - 1)` (natural subtraction).  Gas `len`
suffices; the second component counts loop iterations. -/
def findStartGo (bs : ℕ) (hmeas : ℕ → ℕ) (len scrollTop : ℕ) :
    ℕ → ℕ → ℕ → ℕ × ℕ
  | 0, _, _ => (len - 1, 0)
  | gas + 1, i, curTop =>
    if i < len ∧ 0 < bs then
      let be := min (i + bs) len
      match findInBatch hmeas scrollTop (be - i) i curTop with
      | (some j, _) => (j, 1)
      | (none, cur) =>
        if scrollTop < cur then (i, 1)
        else
          let r := findStartGo bs hmeas len scrollTop gas be cur
          (r.1, r.2 + 1)
    else (len - 1, 0)

/-- `findStartIndexByRendering(scrollTop)` (v3, lines 1870-1912).  The
elements it renders while scanning are discarded by the subsequent
`contentContainer.innerHTML = ''` in `renderFromPosition`, so only the
returned index is observable. -/
def findStartIndexByRendering (bs : ℕ) (hmeas : ℕ → ℕ)
    (len scrollTop : ℕ) : ℕ :=
  (findStartGo bs hmeas len scrollTop len 0 0).1

/-- `updateSpacers()` (v3, lines 1919-1948) as a pure function of its
inputs, returning `(topSpacer, bottomSpacer)` heights.  Note the source
quirk `this.container.clientHeight || 800`: a zero viewport extent is
replaced by 800.  The bottom-alignment padding branch fires only when
`align === 'bottom'`. -/
def updateSpacersCalc (alignBottom : Bool) (containerH0 len : ℕ)
    (s e : ℤ) (contentH : ℕ) : ℕ × ℕ :=
  let ch := if containerH0 = 0 then 800 else containerH0
  let fixed := ch * 2
  if alignBottom = true ∧ s = 0 ∧ e = (len : ℤ) ∧ 0 < len then
    if contentH < ch then (ch - contentH, 0) else (0, 0)
  else
    ((if 0 < s then fixed else 0), (if e < (len : ℤ) then fixed else 0))

/-- Effect of running `updateSpacers()` on the engine state. -/
def applySpacers (cfg : Config) (host : Host) (st : EngineState α) :
    EngineState α :=
  let p := updateSpacersCalc cfg.alignBottom host.containerH
    st.items.length st.renderedStartIndex st.renderedEndIndex
    (contentHeight st)
  { st with topSpacerH := p.1, bottomSpacerH := p.2 }

/-- `_expandDown` as a state transformer: the loop appends one rendered
fragment per batch; the concatenation of those fragments over the
contiguous batches equals the fragment for the whole range
`[renderedEndIndex, newEnd)`.  `renderedEndIndex.toNat` is faithful at
every call site because the source only calls `_expandDown` on seeded
windows (`renderedEndIndex ≥ 0`). -/
def engineExpandDown (cfg : Config) (host : Host) (truthy : α → Bool)
    (st : EngineState α) (target : ℕ) : EngineState α :=
  let e0 := st.renderedEndIndex.toNat
  let r := expandDown cfg.batchSize (measureRange truthy host.hmeas st.items)
    st.items.length e0 target
  { st with renderedEndIndex := (r.1 : ℤ),
            nodes := st.nodes ++ renderItemsFrag truthy host.hmeas st.items e0 r.1 }

/-- `_expandUp` as a state transformer: batches are prepended, so the
rendered fragment for `[newStart, renderedStartIndex)` ends up in front
of the existing nodes. -/
def engineExpandUp (cfg : Config) (host : Host) (truthy : α → Bool)
    (st : EngineState α) (target : ℕ) : EngineState α :=
  let s0 := st.renderedStartIndex.toNat
  let r := expandUp cfg.batchSize (measureRange truthy host.hmeas st.items)
    s0 target
  { st with renderedStartIndex := (r.1 : ℤ),
            nodes := renderItemsFrag truthy host.hmeas st.items r.1 s0 ++ st.nodes }

/-- `renderFromPosition(scrollTop)` (v3, lines 1814-1831): locate the
start index, clear the content container, expand down to
`containerHeight + containerHeight * bufferThreshold`, update spacers. -/
def renderFromPositionV3 (cfg : Config) (host : Host) (truthy : α → Bool)
    (st : EngineState α) (scrollTop : ℕ) : EngineState α :=
  let containerH := host.containerH
  let expandThreshold := containerH * cfg.bufferThreshold
  let len := st.items.length
  let startIndex := findStartIndexByRendering cfg.batchSize host.hmeas len scrollTop
  let targetHeight := containerH + expandThreshold
  let r := expandDown cfg.batchSize (measureRange truthy host.hmeas st.items)
    len startIndex targetHeight
  applySpacers cfg host
    { st with renderedStartIndex := (startIndex : ℤ),
              renderedEndIndex := (r.1 : ℤ),
              nodes := renderItemsFrag truthy host.hmeas st.items startIndex r.1 }

/-- `renderFromBottom()` (v3, lines 1837-1864): seed `start = end = length`
and expand upward, then scroll to the bottom (`scrollTop = scrollHeight`,
modelled as the total of spacers and content; host clamping of scrollTop
to the scrollable range is not modelled). -/
def renderFromBottomV3 (cfg : Config) (host : Host) (truthy : α → Bool)
    (st : EngineState α) : EngineState α :=
  if st.items.length = 0 then st
  else
    let containerH := host.containerH
    let targetHeight := containerH + containerH * cfg.bufferThreshold
    let len := st.items.length
    let r := expandUp cfg.batchSize (measureRange truthy host.hmeas st.items)
      len targetHeight
    let st1 := applySpacers cfg host
      { st with renderedStartIndex := (r.1 : ℤ),
                renderedEndIndex := (len : ℤ),
                nodes := renderItemsFrag truthy host.hmeas st.items r.1 len }
    { st1 with scrollTop := st1.topSpacerH + contentHeight st1 + st1.bottomSpacerH }

/-- `_updateVisibleItems()` (v3, lines 1746-1808).  The reading
`renderedTop = topSpacer.offsetHeight` is the stored spacer height and
`renderedBottom` adds `contentContainer.offsetHeight`; `targetTop` may be
negative in JavaScript, so it is computed in ℤ.  The final
`setTimeout(() => isUpdating = false)` bookkeeping carries no state we
model. -/
def updateVisibleItemsV3 (cfg : Config) (host : Host) (truthy : α → Bool)
    (st : EngineState α) : EngineState α :=
  if st.items.length = 0 then
    { st with nodes := [], topSpacerH := 0, bottomSpacerH := 0 }
  else if st.renderedStartIndex = -1 then
    if cfg.alignBottom then renderFromBottomV3 cfg host truthy st
    else renderFromPositionV3 cfg host truthy st st.scrollTop
  else
    let containerH := host.containerH
    let scrollBottom := st.scrollTop + containerH
    let renderedTop := st.topSpacerH
    let renderedBottom := renderedTop + contentHeight st
    let expandThreshold := containerH * cfg.bufferThreshold
    let targetBottom := scrollBottom + expandThreshold
    let targetTop : ℤ := (st.scrollTop : ℤ) - (expandThreshold : ℤ)
    let needDown : Bool := decide (renderedBottom < targetBottom) &&
      decide (st.renderedEndIndex < (st.items.length : ℤ))
    let needUp : Bool := decide (targetTop < (renderedTop : ℤ)) &&
      decide (0 < st.renderedStartIndex)
    if needDown = false ∧ needUp = false then st
    else
      let st1 := if needDown then
        engineExpandDown cfg host truthy st (targetBottom - renderedBottom) else st
      let st2 := if needUp then
        engineExpandUp cfg host truthy st1 ((renderedTop : ℤ) - targetTop).toNat else st1
      applySpacers cfg host st2

/-- The synchronous mutations of `setItems(items)` (v3, lines 2024-2031)
before `_endUpdate` re-renders: replace the item list (the source copies
with `[...items]`), reset the window to the pre-seed sentinel and clear
the content container.  Note: unlike v1 (line 453), `container.scrollTop`
is NOT touched. -/
def setItemsV3Core (st : EngineState α) (newItems : List α) : EngineState α :=
  { st with batchUpdateMode := true, items := newItems,
            renderedStartIndex := -1, renderedEndIndex := -1, nodes := [] }

/-- Full `setItems(items)` (v3): the core mutations followed by
`_endUpdate()`, which clears batch mode and runs `_updateVisibleItems`. -/
def setItemsV3 (cfg : Config) (host : Host) (truthy : α → Bool)
    (st : EngineState α) (newItems : List α) : EngineState α :=
  let st1 := setItemsV3Core st newItems
  updateVisibleItemsV3 cfg host truthy { st1 with batchUpdateMode := false }

/-- Replace the first mounted node with the given data-index by a freshly
rendered one (`existingElement.replaceWith(newElement)`). -/
def replaceNode : List (ℕ × ℕ) → ℕ → ℕ → List (ℕ × ℕ)
  | [], _, _ => []
  | n :: rest, i, h => if n.1 = i then (i, h) :: rest else n :: replaceNode rest i h

/-- `setItem(index, item)` (v3, lines 2038-2061).  The deferred
`requestAnimationFrame(updateSpacers)` after an in-place replacement is
not applied to the state (it only resizes spacers later). -/
def setItemV3 (cfg : Config) (host : Host) (truthy : α → Bool)
    (st : EngineState α) (index : ℤ) (item : α) : EngineState α :=
  if index < 0 ∨ (st.items.length : ℤ) ≤ index then st
  else
    let i := index.toNat
    let st1 := { st with items := st.items.set i item }
    if st.renderedStartIndex ≤ index ∧ index < st.renderedEndIndex then
      match st.nodes.find? (fun n => n.1 == i) with
      | some _ => { st1 with nodes := replaceNode st1.nodes i (host.hmeas i) }
      | none =>
        if st.batchUpdateMode then st1 else updateVisibleItemsV3 cfg host truthy st1
    else
      if st.batchUpdateMode then st1 else updateVisibleItemsV3 cfg host truthy st1

/-- `insert(index, item)` (v3, lines 2068-2081): a falsy item is silently
ignored; otherwise the index is CLAMPED into `[0, length]`
(`Math.max(0, Math.min(index, this.items.length))`), the item spliced in,
the window discarded and the view re-rendered. -/
def insertV3 (cfg : Config) (host : Host) (truthy : α → Bool)
    (st : EngineState α) (index : ℤ) (item : α) : EngineState α :=
  if truthy item = false then st
  else
    let insertIndex := (max 0 (min index (st.items.length : ℤ))).toNat
    let st1 := { st with items := st.items.insertIdx insertIndex item,
                         renderedStartIndex := -1, renderedEndIndex := -1,
                         nodes := [] }
    if st.batchUpdateMode then st1 else updateVisibleItemsV3 cfg host truthy st1

/-- `_updateRenderedIndices()` (v3, lines 2008-2018): re-assign
`data-index` sequentially from `renderedStartIndex` over the mounted
nodes in document order. -/
def renumber (s : ℕ) : List (ℕ × ℕ) → List (ℕ × ℕ)
  | [] => []
  | n :: rest => (s, n.2) :: renumber (s + 1) rest

/-- Upward backfill step of `remove` (v3, lines 2191-2198): decrement
`renderedStartIndex` and, when the item there is defined, mount it at the
front.  Operates on the state with the item already spliced out. -/
def removeUpFill (host : Host) (st : EngineState α) : EngineState α :=
  if 0 < st.renderedStartIndex then
    let s1 := st.renderedStartIndex - 1
    match st.items.get? s1.toNat with
    | some _ => { st with renderedStartIndex := s1,
                          nodes := (s1.toNat, host.hmeas s1.toNat) :: st.nodes }
    | none => { st with renderedStartIndex := s1 }
  else st

/-- `remove(itemOrIndex)` (v3, lines 2124-2206) for a numeric argument
(the item-valued variant first maps the item to its index with `indexOf`).
Out-of-range indices return without any mutation.  For an in-window
removal the deferred `requestAnimationFrame(updateSpacers)` at the end is
not applied to the state; for an out-of-window removal `updateSpacers()`
runs synchronously unless batching. -/
def removeV3 (cfg : Config) (host : Host) (truthy : α → Bool)
    (st : EngineState α) (index : ℤ) : EngineState α :=
  if index < 0 ∨ (st.items.length : ℤ) ≤ index then st
  else
    let i := index.toNat
    let items1 := st.items.eraseIdx i
    if st.renderedStartIndex ≠ -1 ∧ st.renderedStartIndex ≤ index ∧
        index < st.renderedEndIndex then
      let nodes1 := st.nodes.eraseP (fun n => n.1 == i)
      let e1 := st.renderedEndIndex - 1
      let st1 := { st with items := items1, renderedEndIndex := e1,
                           nodes := renumber st.renderedStartIndex.toNat nodes1 }
      if e1 < (items1.length : ℤ) then
        match items1.get? e1.toNat with
        | some _ =>
          { st1 with renderedEndIndex := e1 + 1,
                     nodes := st1.nodes ++ [(e1.toNat, host.hmeas e1.toNat)] }
        | none => removeUpFill host st1
      else removeUpFill host st1
    else
      if st.renderedStartIndex ≠ -1 ∧ index < st.renderedStartIndex then
        let st1 := { st with items := items1,
                             renderedStartIndex := st.renderedStartIndex - 1,
                             renderedEndIndex := st.renderedEndIndex - 1 }
        let st2 := { st1 with nodes := renumber st1.renderedStartIndex.toNat st1.nodes }
        if st.batchUpdateMode then st2 else applySpacers cfg host st2
      else if st.renderedStartIndex ≠ -1 ∧ index < st.renderedEndIndex then
        let st1 := { st with items := items1,
                             renderedEndIndex := st.renderedEndIndex - 1 }
        let st2 := { st1 with nodes := renumber st1.renderedStartIndex.toNat st1.nodes }
        if st.batchUpdateMode then st2 else applySpacers cfg host st2
      else
        let st1 := { st with items := items1 }
        if st.batchUpdateMode then st1 else applySpacers cfg host st1

/-- Offset of the first node with the given data-index from the top of
the content container: the sum of the heights of the preceding nodes
(`targetElement.offsetTop` relative to the content container). -/
def offsetTopOf : List (ℕ × ℕ) → ℕ → ℕ
  | [], _ => 0
  | n :: rest, i => if n.1 = i then 0 else n.2 + offsetTopOf rest i

/-- Re-seeding path of `scrollToItem` (v3, lines 2273-2299): clear the
content, expand down from the target to `containerHeight * (1 +
bufferThreshold)`, expand up with whatever height remains, update
spacers, then set the scroll offset (deferred to animation frames in the
source; modelled as settled). -/
def scrollToItemReseed (cfg : Config) (host : Host) (truthy : α → Bool)
    (st : EngineState α) (targetIndex : ℕ) (alignBottom : Bool) : EngineState α :=
  let containerH := host.containerH
  let len := st.items.length
  let targetHeight := containerH * (1 + cfg.bufferThreshold)
  let mh := measureRange truthy host.hmeas st.items
  let down := expandDown cfg.batchSize mh len targetIndex targetHeight
  let remainingHeight := targetHeight - down.2.1
  let up := if 0 < remainingHeight then expandUp cfg.batchSize mh targetIndex remainingHeight
            else (targetIndex, 0, 0)
  let st1 := applySpacers cfg host
    { st with renderedStartIndex := (up.1 : ℤ), renderedEndIndex := (down.1 : ℤ),
              nodes := renderItemsFrag truthy host.hmeas st.items up.1 targetIndex ++
                       renderItemsFrag truthy host.hmeas st.items targetIndex down.1 }
  let targetScrollTop := if alignBottom then
      st1.topSpacerH + contentHeight st1 + st1.bottomSpacerH
    else st1.topSpacerH + up.2.1
  { st1 with scrollTop := targetScrollTop }

/-- `scrollToItem(itemOrIndex, alignBottom)` (v3, lines 2227-2300) for a
numeric argument.  When the target is materialized and its element is
found, only the scroll offset moves (the two-frame settle is modelled as
settled); otherwise the window is discarded and reseeded at the
target. -/
def scrollToItemV3 (cfg : Config) (host : Host) (truthy : α → Bool)
    (st : EngineState α) (index : ℤ) (alignBottom : Bool) : EngineState α :=
  if index < 0 ∨ (st.items.length : ℤ) ≤ index then st
  else
    let t := index.toNat
    if st.renderedStartIndex ≠ -1 ∧ st.renderedStartIndex ≤ index ∧
        index < st.renderedEndIndex then
      match st.nodes.find? (fun n => n.1 == t) with
      | some nd =>
        let offTop := offsetTopOf st.nodes t
        let targetScrollTop := if alignBottom then (offTop + nd.2) - host.containerH
                               else st.topSpacerH + offTop
        { st with scrollTop := targetScrollTop }
      | none => scrollToItemReseed cfg host truthy st t alignBottom
    else scrollToItemReseed cfg host truthy st t alignBottom

/-- `getVisibleRange()` (v3, lines 2305-2318) as a `(start, end, count)`
triple; the pre-seed state reports `(0, 0, 0)`. -/
def getVisibleRangeV3 (st : EngineState α) : ℤ × ℤ × ℤ :=
  if st.renderedStartIndex = -1 then (0, 0, 0)
  else (st.renderedStartIndex, st.renderedEndIndex,
        st.renderedEndIndex - st.renderedStartIndex)

/-- Window-bounds invariant of the spec for seeded states:
`0 ≤ start ≤ end ≤ itemCount`. -/
def WindowInv (st : EngineState α) : Prop :=
  0 ≤ st.renderedStartIndex ∧ st.renderedStartIndex ≤ st.renderedEndIndex ∧
    st.renderedEndIndex ≤ (st.items.length : ℤ)

instance (st : EngineState α) : Decidable (WindowInv st) := by
  unfold WindowInv; infer_instance

/-!
The v2 engine (lines 795-1550) is the iteration with the Height Cache:
`itemHeights : Map<index, px>` holds measured extents (`itemPositions`
is a derived position cache, cleared on every mutation and rebuilt by
`calculatePositions`, so it is not part of the store state).  Measured
heights are modelled as integers so that the "zero or negative extent"
policy is statable.
-/

/-- The Height Cache: `itemHeights` as a partial map from index to
measured extent. -/
def HeightCache : Type := ℕ → Option ℤ

/-- The write policy of `measureHeights` (v2, lines 1167-1202): a
measured `height` is stored only `if (height > 0)`; the source
additionally skips the write when the stored value is already equal
(`oldHeight !== height`), which we keep verbatim. -/
def measureSet (c : HeightCache) (i : ℕ) (h : ℤ) : HeightCache :=
  if 0 < h then
    if c i = some h then c else fun j => if j = i then some h else c j
  else c

/-- The read policy `this.itemHeights.get(i) || this.options.estimatedItemHeight`
(v2, `calculatePositions` line 951 and `updateVisibleItems` line 1010).
JavaScript `||` also falls back to the estimate on a stored 0, which the
write policy never produces. -/
def cacheGet (est : ℤ) (c : HeightCache) (i : ℕ) : ℤ :=
  match c i with
  | some h => if h = 0 then est else h
  | none => est

/-- Total content height as computed by `calculatePositions()` (v2, lines
946-956): the sum over all indices of the cached-or-estimated extent. -/
def calculatePositionsTotal (est : ℤ) (c : HeightCache) (len : ℕ) : ℤ :=
  (List.range len).foldl (fun cur i => cur + cacheGet est c i) 0

/-- Item Store state of the v2 engine: the ordered sequence and the
Height Cache. -/
structure StoreV2 (α : Type) where
  items : List α
  itemHeights : HeightCache

/-- `setItems(items)` (v2, lines 1231-1238), synchronous mutations: the
sequence is replaced and `itemHeights.clear()` empties the cache.  The
scroll offset is re-read from the container
(`this.scrollTop = this.container.scrollTop`), NOT reset to 0. -/
def setItemsV2 (st : StoreV2 α) (newItems : List α) : StoreV2 α :=
  { items := newItems, itemHeights := fun _ => none }

/-- `insertItem(index, item)` (v2, lines 1263-1286): clamp the index into
`[0, length]`, splice the item in, and rebuild `itemHeights` with every
entry at `idx ≥ insertIndex` remapped to `idx + 1` (entries below are
kept).  The rebuilt map, queried at `j`: entries below `insertIndex` are
untouched, nothing lands on `insertIndex` itself, and `j > insertIndex`
receives the old entry of `j - 1`. -/
def insertItemV2 (st : StoreV2 α) (index : ℤ) (item : α) : StoreV2 α :=
  let a := (max 0 (min index (st.items.length : ℤ))).toNat
  { items := st.items.insertIdx a item,
    itemHeights := fun j =>
      if j < a then st.itemHeights j
      else if j = a then none
      else st.itemHeights (j - 1) }

/-- `remove(itemOrIndex)` (v2, lines 1361-1394) for a numeric in-range
index: splice the item out and rebuild `itemHeights` with the entry at
`index` dropped and every entry at `idx > index` remapped to `idx - 1`.
Queried at `j`: entries below `index` are untouched and `j ≥ index`
receives the old entry of `j + 1`. -/
def removeItemV2 (st : StoreV2 α) (index : ℤ) : StoreV2 α :=
  if index < 0 ∨ (st.items.length : ℤ) ≤ index then st
  else
    let a := index.toNat
    { items := st.items.eraseIdx a,
      itemHeights := fun j =>
        if j < a then st.itemHeights j
        else st.itemHeights (j + 1) }

/-!
Concrete instances used by witnesses and counterexamples.
-/

/-- Configuration of the spec scenario of claim C2: `batchSize = 20`,
`expansionThresholdFactor (bufferThreshold) = 2`, leading alignment. -/
def cfgC2 : Config := ⟨2, false, 20⟩

/-- Host of the C2 scenario: `viewportExtent = 600` and every item
measuring exactly the estimated extent of 50. -/
def hostC2 : Host := ⟨600, fun _ => 50⟩

/-- Pre-seed engine state over `n` truthy items, scroll offset 0. -/
def stC2n (n : ℕ) : EngineState Bool :=
  ⟨List.replicate n true, -1, -1, 0, 0, 0, [], false⟩

/-- Pre-seed engine state over 100000 truthy items (the C2 scenario),
scroll offset 0. -/
def stC2 : EngineState Bool := stC2n 100000

/-- A small seeded example state: three truthy items, window `[0, 3)`,
all nodes mounted with height 50, scroll offset 100. -/
def stEx : EngineState Bool :=
  ⟨[true, true, true], 0, 3, 100, 0, 0, [(0, 50), (1, 50), (2, 50)], false⟩

/-- A small pre-seed example state over one item. -/
def stOne : EngineState Bool :=
  ⟨[true], -1, -1, 0, 0, 0, [], false⟩

/-- A small default configuration: `bufferThreshold = 2`, leading
alignment, `batchSize = 10`. -/
def cfgEx : Config := ⟨2, false, 10⟩

/-- A small host: viewport 600, every node measuring 50. -/
def hostEx : Host := ⟨600, fun _ => 50⟩

/-- A small example Height Cache holding one measured entry (7px at
index 0). -/
def cW : HeightCache := fun j => if j = 0 then some 7 else none

/-- A small example v2 store: three items, measured heights 11 and 22 at
indices 0 and 1. -/
def stV2Ex : StoreV2 Bool :=
  ⟨[true, true, true], fun j => if j = 0 then some 11 else
    if j = 1 then some 22 else none⟩

/-! ### Bounds and termination facts for the three expansion loops -/

lemma expandDownGo_le_fst (bs : ℕ) (mh : ℕ → ℕ → ℕ) (len target : ℕ) :
    ∀ gas e acc, e ≤ (expandDownGo bs mh len target gas e acc).1 := by
  intro gas
  induction gas with
  | zero => intro e acc; exact le_refl e
  | succ g ih =>
    intro e acc
    simp only [expandDownGo]
    split
    next h =>
      exact le_trans (le_min (Nat.le_add_right e bs) (le_of_lt h.1))
        (ih (min (e + bs) len) (acc + mh e (min (e + bs) len)))
    next => exact le_refl e

lemma expandDownGo_fst_le (bs : ℕ) (mh : ℕ → ℕ → ℕ) (len target : ℕ) :
    ∀ gas e acc, e ≤ len → (expandDownGo bs mh len target gas e acc).1 ≤ len := by
  intro gas
  induction gas with
  | zero => intro e acc h; exact h
  | succ g ih =>
    intro e acc h
    simp only [expandDownGo]
    split
    next => exact ih _ _ (min_le_right _ _)
    next => exact h

lemma expandUpGo_fst_le (bs : ℕ) (mh : ℕ → ℕ → ℕ) (target : ℕ) :
    ∀ gas s acc, (expandUpGo bs mh target gas s acc).1 ≤ s := by
  intro gas
  induction gas with
  | zero => intro s acc; exact le_refl s
  | succ g ih =>
    intro s acc
    simp only [expandUpGo]
    split
    next => exact le_trans (ih _ _) (Nat.sub_le s bs)
    next => exact le_refl s

lemma findInBatch_some_lt (hmeas : ℕ → ℕ) (scrollTop : ℕ) :
    ∀ n j curTop j2 c, findInBatch hmeas scrollTop n j curTop = (some j2, c) →
      j2 < j + n := by
  intro n
  induction n with
  | zero => intro j curTop j2 c h; simp [findInBatch] at h
  | succ m ih =>
    intro j curTop j2 c h
    simp only [findInBatch] at h
    split at h
    · simp only [Prod.mk.injEq, Option.some.injEq] at h
      omega
    · have := ih _ _ _ _ h
      omega

lemma findStartGo_le (bs : ℕ) (hmeas : ℕ → ℕ) (len scrollTop : ℕ)
    (hlen : 0 < len) :
    ∀ gas i curTop, (findStartGo bs hmeas len scrollTop gas i curTop).1 ≤ len - 1 := by
  intro gas
  induction gas with
  | zero => intro i curTop; exact le_refl (len - 1)
  | succ g ih =>
    intro i curTop
    simp only [findStartGo]
    split
    next h =>
      split
      next j c heq =>
        have := findInBatch_some_lt hmeas scrollTop (min (i + bs) len - i) i curTop j c heq
        have hmin : min (i + bs) len ≤ len := min_le_right _ _
        omega
      next c heq =>
        split
        next => omega
        next => exact ih _ _
    next => exact le_refl (len - 1)

lemma expandDownGo_gas_eq (bs : ℕ) (mh : ℕ → ℕ → ℕ) (len target : ℕ) :
    ∀ gas1 gas2 e acc, len - e ≤ gas1 → len - e ≤ gas2 →
      expandDownGo bs mh len target gas1 e acc =
        expandDownGo bs mh len target gas2 e acc := by
  intro gas1
  induction gas1 with
  | zero =>
    intro gas2 e acc h1 h2
    cases gas2 with
    | zero => rfl
    | succ g2 =>
      simp only [expandDownGo]
      rw [if_neg (by omega)]
  | succ g ih =>
    intro gas2 e acc h1 h2
    cases gas2 with
    | zero =>
      simp only [expandDownGo]
      rw [if_neg (by omega)]
    | succ g2 =>
      simp only [expandDownGo]
      by_cases hc : e < len ∧ acc < target ∧ 0 < bs
      · rw [if_pos hc, if_pos hc]
        have hbe : min (e + bs) len = min (e + bs) len := rfl
        rw [ih g2 (min (e + bs) len) (acc + mh e (min (e + bs) len))
          (by omega) (by omega)]
      · rw [if_neg hc, if_neg hc]

lemma expandUpGo_gas_eq (bs : ℕ) (mh : ℕ → ℕ → ℕ) (target : ℕ) :
    ∀ gas1 gas2 s acc, s ≤ gas1 → s ≤ gas2 →
      expandUpGo bs mh target gas1 s acc = expandUpGo bs mh target gas2 s acc := by
  intro gas1
  induction gas1 with
  | zero =>
    intro gas2 s acc h1 h2
    cases gas2 with
    | zero => rfl
    | succ g2 =>
      simp only [expandUpGo]
      rw [if_neg (by omega)]
  | succ g ih =>
    intro gas2 s acc h1 h2
    cases gas2 with
    | zero =>
      simp only [expandUpGo]
      rw [if_neg (by omega)]
    | succ g2 =>
      simp only [expandUpGo]
      by_cases hc : 0 < s ∧ acc < target ∧ 0 < bs
      · rw [if_pos hc, if_pos hc]
        rw [ih g2 (s - bs) (acc + mh (s - bs) s) (by omega) (by omega)]
      · rw [if_neg hc, if_neg hc]

lemma findStartGo_gas_eq (bs : ℕ) (hmeas : ℕ → ℕ) (len scrollTop : ℕ) :
    ∀ gas1 gas2 i curTop, len - i ≤ gas1 → len - i ≤ gas2 →
      findStartGo bs hmeas len scrollTop gas1 i curTop =
        findStartGo bs hmeas len scrollTop gas2 i curTop := by
  intro gas1
  induction gas1 with
  | zero =>
    intro gas2 i curTop h1 h2
    cases gas2 with
    | zero => rfl
    | succ g2 =>
      simp only [findStartGo]
      rw [if_neg (by omega)]
  | succ g ih =>
    intro gas2 i curTop h1 h2
    cases gas2 with
    | zero =>
      simp only [findStartGo]
      rw [if_neg (by omega)]
    | succ g2 =>
      simp only [findStartGo]
      by_cases hc : i < len ∧ 0 < bs
      · rw [if_pos hc, if_pos hc]
        cases heq : findInBatch hmeas scrollTop (min (i + bs) len - i) i curTop with
        | mk found cur =>
          cases found with
          | some j => rfl
          | none =>
            dsimp only
            by_cases hcur : scrollTop < cur
            · rw [if_pos hcur, if_pos hcur]
            · rw [if_neg hcur, if_neg hcur]
              rw [ih g2 (min (i + bs) len) cur (by omega) (by omega)]
      · rw [if_neg hc, if_neg hc]

lemma ceil_chunk_step (x bs : ℕ) (hx : 1 ≤ x) (hbs : 1 ≤ bs) :
    1 + (x - bs + bs - 1) / bs ≤ (x + bs - 1) / bs := by
  rcases le_or_lt x bs with h | h
  · have h1 : x - bs = 0 := by omega
    rw [h1]
    have h2 : (0 + bs - 1) / bs = 0 := Nat.div_eq_of_lt (by omega)
    rw [h2]
    have h3 : bs ≤ x + bs - 1 := by omega
    have h4 : 1 ≤ (x + bs - 1) / bs := (Nat.one_le_div_iff (by omega)).mpr h3
    omega
  · have h1 : x - bs + bs - 1 = x - 1 := by omega
    have h2 : x + bs - 1 = x - 1 + bs := by omega
    rw [h1, h2, Nat.add_div_right _ (by omega)]
    omega

lemma expandDownGo_count_le (bs : ℕ) (mh : ℕ → ℕ → ℕ) (len target : ℕ) :
    ∀ gas e acc, (expandDownGo bs mh len target gas e acc).2.2 ≤
      (len - e + bs - 1) / bs := by
  intro gas
  induction gas with
  | zero => intro e acc; exact Nat.zero_le _
  | succ g ih =>
    intro e acc
    simp only [expandDownGo]
    split
    next h =>
      dsimp only
      have hih := ih (min (e + bs) len) (acc + mh e (min (e + bs) len))
      have hsub : len - min (e + bs) len = len - e - bs := by omega
      have hstep := ceil_chunk_step (len - e) bs (by omega) h.2.2
      rw [hsub] at hih
      omega
    next => exact Nat.zero_le _

lemma expandUpGo_count_le (bs : ℕ) (mh : ℕ → ℕ → ℕ) (target : ℕ) :
    ∀ gas s acc, (expandUpGo bs mh target gas s acc).2.2 ≤ (s + bs - 1) / bs := by
  intro gas
  induction gas with
  | zero => intro s acc; exact Nat.zero_le _
  | succ g ih =>
    intro s acc
    simp only [expandUpGo]
    split
    next h =>
      dsimp only
      have hih := ih (s - bs) (acc + mh (s - bs) s)
      have hstep := ceil_chunk_step s bs (by omega) h.2.2
      omega
    next => exact Nat.zero_le _

lemma findStartGo_count_le (bs : ℕ) (hmeas : ℕ → ℕ) (len scrollTop : ℕ) :
    ∀ gas i curTop, (findStartGo bs hmeas len scrollTop gas i curTop).2 ≤
      (len - i + bs - 1) / bs := by
  intro gas
  induction gas with
  | zero => intro i curTop; exact Nat.zero_le _
  | succ g ih =>
    intro i curTop
    simp only [findStartGo]
    split
    next h =>
      have hone : 1 ≤ (len - i + bs - 1) / bs :=
        (Nat.one_le_div_iff (by omega)).mpr (by omega)
      split
      next j c heq => simpa using hone
      next c heq =>
        split
        next => simpa using hone
        next =>
          dsimp only
          have hih := ih (min (i + bs) len) c
          have hsub : len - min (i + bs) len = len - i - bs := by omega
          have hstep := ceil_chunk_step (len - i) bs (by omega) h.2
          rw [hsub] at hih
          omega
    next => exact Nat.zero_le _

/-! ### Projection facts for the engine operations -/

@[simp] lemma applySpacers_items (cfg : Config) (host : Host) (st : EngineState α) :
    (applySpacers cfg host st).items = st.items := rfl

@[simp] lemma applySpacers_start (cfg : Config) (host : Host) (st : EngineState α) :
    (applySpacers cfg host st).renderedStartIndex = st.renderedStartIndex := rfl

@[simp] lemma applySpacers_stop (cfg : Config) (host : Host) (st : EngineState α) :
    (applySpacers cfg host st).renderedEndIndex = st.renderedEndIndex := rfl

@[simp] lemma applySpacers_scrollTop (cfg : Config) (host : Host) (st : EngineState α) :
    (applySpacers cfg host st).scrollTop = st.scrollTop := rfl

@[simp] lemma engineExpandDown_items (cfg : Config) (host : Host)
    (truthy : α → Bool) (st : EngineState α) (t : ℕ) :
    (engineExpandDown cfg host truthy st t).items = st.items := rfl

@[simp] lemma engineExpandDown_start (cfg : Config) (host : Host)
    (truthy : α → Bool) (st : EngineState α) (t : ℕ) :
    (engineExpandDown cfg host truthy st t).renderedStartIndex =
      st.renderedStartIndex := rfl

@[simp] lemma engineExpandDown_scrollTop (cfg : Config) (host : Host)
    (truthy : α → Bool) (st : EngineState α) (t : ℕ) :
    (engineExpandDown cfg host truthy st t).scrollTop = st.scrollTop := rfl

@[simp] lemma engineExpandUp_items (cfg : Config) (host : Host)
    (truthy : α → Bool) (st : EngineState α) (t : ℕ) :
    (engineExpandUp cfg host truthy st t).items = st.items := rfl

@[simp] lemma engineExpandUp_stop (cfg : Config) (host : Host)
    (truthy : α → Bool) (st : EngineState α) (t : ℕ) :
    (engineExpandUp cfg host truthy st t).renderedEndIndex =
      st.renderedEndIndex := rfl

@[simp] lemma engineExpandUp_scrollTop (cfg : Config) (host : Host)
    (truthy : α → Bool) (st : EngineState α) (t : ℕ) :
    (engineExpandUp cfg host truthy st t).scrollTop = st.scrollTop := rfl

@[simp] lemma renderFromPositionV3_items (cfg : Config) (host : Host)
    (truthy : α → Bool) (st : EngineState α) (sc : ℕ) :
    (renderFromPositionV3 cfg host truthy st sc).items = st.items := rfl

@[simp] lemma renderFromPositionV3_scrollTop (cfg : Config) (host : Host)
    (truthy : α → Bool) (st : EngineState α) (sc : ℕ) :
    (renderFromPositionV3 cfg host truthy st sc).scrollTop = st.scrollTop := rfl

lemma renderFromBottomV3_items (cfg : Config) (host : Host)
    (truthy : α → Bool) (st : EngineState α) :
    (renderFromBottomV3 cfg host truthy st).items = st.items := by
  unfold renderFromBottomV3
  split <;> rfl

lemma updateVisibleItemsV3_items (cfg : Config) (host : Host)
    (truthy : α → Bool) (st : EngineState α) :
    (updateVisibleItemsV3 cfg host truthy st).items = st.items := by
  unfold updateVisibleItemsV3
  split
  · rfl
  split
  · split
    · exact renderFromBottomV3_items cfg host truthy st
    · exact renderFromPositionV3_items cfg host truthy st st.scrollTop
  · dsimp only
    split
    · rfl
    · simp only [applySpacers_items]
      split <;> split <;> simp

lemma updateVisibleItemsV3_scrollTop (cfg : Config) (host : Host)
    (truthy : α → Bool) (st : EngineState α) (halign : cfg.alignBottom = false) :
    (updateVisibleItemsV3 cfg host truthy st).scrollTop = st.scrollTop := by
  unfold updateVisibleItemsV3
  split
  · rfl
  split
  · rw [halign]
    simp only [Bool.false_eq_true, if_false]
    exact renderFromPositionV3_scrollTop cfg host truthy st st.scrollTop
  · dsimp only
    split
    · rfl
    · simp only [applySpacers_scrollTop]
      split <;> split <;> simp

/-! ### Window-bounds invariant: establishment and preservation -/

lemma windowInv_engineExpandDown (cfg : Config) (host : Host)
    (truthy : α → Bool) (st : EngineState α) (t : ℕ) (h : WindowInv st) :
    WindowInv (engineExpandDown cfg host truthy st t) := by
  obtain ⟨h0, h1, h2⟩ := h
  have hle := expandDownGo_le_fst cfg.batchSize
    (measureRange truthy host.hmeas st.items) st.items.length t
    (st.items.length - st.renderedEndIndex.toNat) st.renderedEndIndex.toNat 0
  have hub := expandDownGo_fst_le cfg.batchSize
    (measureRange truthy host.hmeas st.items) st.items.length t
    (st.items.length - st.renderedEndIndex.toNat) st.renderedEndIndex.toNat 0
    (by omega)
  unfold engineExpandDown WindowInv expandDown
  dsimp only
  unfold expandDown at hle hub
  refine ⟨h0, ?_, ?_⟩ <;> omega

lemma windowInv_engineExpandUp (cfg : Config) (host : Host)
    (truthy : α → Bool) (st : EngineState α) (t : ℕ) (h : WindowInv st) :
    WindowInv (engineExpandUp cfg host truthy st t) := by
  obtain ⟨h0, h1, h2⟩ := h
  have hle := expandUpGo_fst_le cfg.batchSize
    (measureRange truthy host.hmeas st.items) t
    st.renderedStartIndex.toNat st.renderedStartIndex.toNat 0
  unfold engineExpandUp WindowInv expandUp
  dsimp only
  refine ⟨?_, ?_, h2⟩ <;> omega

lemma windowInv_renderFromPositionV3 (cfg : Config) (host : Host)
    (truthy : α → Bool) (st : EngineState α) (sc : ℕ)
    (hne : st.items.length ≠ 0) :
    WindowInv (renderFromPositionV3 cfg host truthy st sc) := by
  have hstart : findStartIndexByRendering cfg.batchSize host.hmeas
      st.items.length sc ≤ st.items.length - 1 := by
    unfold findStartIndexByRendering
    exact findStartGo_le cfg.batchSize host.hmeas st.items.length sc
      (by omega) st.items.length 0 0
  have hle := expandDownGo_le_fst cfg.batchSize
    (measureRange truthy host.hmeas st.items) st.items.length
    (host.containerH + host.containerH * cfg.bufferThreshold)
    (st.items.length - findStartIndexByRendering cfg.batchSize host.hmeas
      st.items.length sc)
    (findStartIndexByRendering cfg.batchSize host.hmeas st.items.length sc) 0
  have hub := expandDownGo_fst_le cfg.batchSize
    (measureRange truthy host.hmeas st.items) st.items.length
    (host.containerH + host.containerH * cfg.bufferThreshold)
    (st.items.length - findStartIndexByRendering cfg.batchSize host.hmeas
      st.items.length sc)
    (findStartIndexByRendering cfg.batchSize host.hmeas st.items.length sc) 0
    (by omega)
  unfold renderFromPositionV3 WindowInv expandDown
  simp only [applySpacers_start, applySpacers_stop, applySpacers_items]
  unfold expandDown at hle hub
  refine ⟨?_, ?_, ?_⟩ <;> omega

lemma windowInv_scrollToItemReseed (cfg : Config) (host : Host)
    (truthy : α → Bool) (st : EngineState α) (t : ℕ) (ab : Bool)
    (ht : t ≤ st.items.length) :
    WindowInv (scrollToItemReseed cfg host truthy st t ab) := by
  have hle := expandDownGo_le_fst cfg.batchSize
    (measureRange truthy host.hmeas st.items) st.items.length
    (host.containerH * (1 + cfg.bufferThreshold)) (st.items.length - t) t 0
  have hub := expandDownGo_fst_le cfg.batchSize
    (measureRange truthy host.hmeas st.items) st.items.length
    (host.containerH * (1 + cfg.bufferThreshold)) (st.items.length - t) t 0 ht
  unfold scrollToItemReseed WindowInv expandDown expandUp
  simp only [applySpacers_start, applySpacers_stop, applySpacers_items]
  split
  next hrem =>
    have hup := expandUpGo_fst_le cfg.batchSize
      (measureRange truthy host.hmeas st.items)
      (host.containerH * (1 + cfg.bufferThreshold) -
        (expandDownGo cfg.batchSize (measureRange truthy host.hmeas st.items)
          st.items.length (host.containerH * (1 + cfg.bufferThreshold))
          (st.items.length - t) t 0).2.1) t t 0
    refine ⟨?_, ?_, ?_⟩ <;> dsimp only <;> omega
  next =>
    refine ⟨?_, ?_, ?_⟩ <;> dsimp only <;> omega

lemma expandDownGo_lt_fst (bs : ℕ) (mh : ℕ → ℕ → ℕ) (len target : ℕ)
    (gas e : ℕ) (h1 : e < len) (h2 : 0 < target) (h3 : 0 < bs)
    (hgas : 0 < gas) : e < (expandDownGo bs mh len target gas e 0).1 := by
  cases gas with
  | zero => omega
  | succ g =>
    simp only [expandDownGo]
    rw [if_pos ⟨h1, h2, h3⟩]
    have hle := expandDownGo_le_fst bs mh len target g (min (e + bs) len)
      (0 + mh e (min (e + bs) len))
    dsimp only
    omega

lemma scrollToItemReseed_visibleRange (cfg : Config) (host : Host)
    (truthy : α → Bool) (st : EngineState α) (t : ℕ) (ab : Bool)
    (ht : t < st.items.length) (hc : 0 < host.containerH)
    (hbs : 0 < cfg.batchSize) :
    (getVisibleRangeV3 (scrollToItemReseed cfg host truthy st t ab)).1 ≤ (t : ℤ) ∧
    (t : ℤ) < (getVisibleRangeV3 (scrollToItemReseed cfg host truthy st t ab)).2.1 := by
  have htar : 0 < host.containerH * (1 + cfg.bufferThreshold) :=
    Nat.mul_pos hc (by omega)
  have hdown := expandDownGo_lt_fst cfg.batchSize
    (measureRange truthy host.hmeas st.items) st.items.length
    (host.containerH * (1 + cfg.bufferThreshold)) (st.items.length - t) t
    ht htar hbs (by omega)
  unfold scrollToItemReseed getVisibleRangeV3 expandDown expandUp
  simp only [applySpacers_start, applySpacers_stop, applySpacers_items]
  try dsimp only
  split
  next hrem =>
    have hup := expandUpGo_fst_le cfg.batchSize
      (measureRange truthy host.hmeas st.items)
      (host.containerH * (1 + cfg.bufferThreshold) -
        (expandDownGo cfg.batchSize (measureRange truthy host.hmeas st.items)
          st.items.length (host.containerH * (1 + cfg.bufferThreshold))
          (st.items.length - t) t 0).2.1) t t 0
    rw [if_neg (by omega)]
    constructor <;> dsimp only <;> omega
  next hrem =>
    rw [if_neg (by omega)]
    constructor <;> dsimp only <;> omega

lemma windowInv_scrollToItemV3 (cfg : Config) (host : Host)
    (truthy : α → Bool) (st : EngineState α) (idx : ℤ) (ab : Bool)
    (h : WindowInv st) :
    WindowInv (scrollToItemV3 cfg host truthy st idx ab) := by
  unfold scrollToItemV3
  split
  next => exact h
  next hrange =>
    have ht : idx.toNat ≤ st.items.length := by omega
    dsimp only
    split
    next hwin =>
      cases hfind : st.nodes.find? (fun n => n.1 == idx.toNat) with
      | some nd => exact h
      | none => exact windowInv_scrollToItemReseed cfg host truthy st idx.toNat ab ht
    next => exact windowInv_scrollToItemReseed cfg host truthy st idx.toNat ab ht

lemma windowInv_removeUpFill (host : Host) (st : EngineState α)
    (h0 : 0 ≤ st.renderedStartIndex)
    (h1 : st.renderedStartIndex ≤ st.renderedEndIndex)
    (h2 : st.renderedEndIndex ≤ (st.items.length : ℤ)) :
    WindowInv (removeUpFill host st) := by
  unfold removeUpFill WindowInv
  split
  next hpos =>
    dsimp only
    cases hget : st.items.get? (st.renderedStartIndex - 1).toNat with
    | some v => refine ⟨?_, ?_, ?_⟩ <;> first | omega | (dsimp only; omega)
    | none => refine ⟨?_, ?_, ?_⟩ <;> first | omega | (dsimp only; omega)
  next hpos =>
    refine ⟨?_, ?_, ?_⟩ <;> omega

lemma windowInv_removeV3 (cfg : Config) (host : Host) (truthy : α → Bool)
    (st : EngineState α) (idx : ℤ) (h : WindowInv st) :
    WindowInv (removeV3 cfg host truthy st idx) := by
  obtain ⟨h0, h1, h2⟩ := h
  unfold removeV3
  split
  next => exact ⟨h0, h1, h2⟩
  next hrange =>
    have hin : idx.toNat < st.items.length := by omega
    have hlen : (st.items.eraseIdx idx.toNat).length = st.items.length - 1 := by
      rw [List.length_eraseIdx, if_pos hin]
    dsimp only
    split
    next hwin =>
      split
      next hfill =>
        split
        next => refine ⟨?_, ?_, ?_⟩ <;> first | omega | (dsimp only; omega)
        next =>
          refine windowInv_removeUpFill host _ ?_ ?_ ?_ <;>
            first | omega | (dsimp only; omega)
      next hfill =>
        refine windowInv_removeUpFill host _ ?_ ?_ ?_ <;>
          first | omega | (dsimp only; omega)
    next hwin =>
      split
      next hbefore =>
        split
        next => refine ⟨?_, ?_, ?_⟩ <;> first | omega | (dsimp only; omega)
        next =>
          refine ⟨?_, ?_, ?_⟩ <;>
            simp only [applySpacers_start, applySpacers_stop, applySpacers_items] <;>
            first | omega | (dsimp only; omega)
      next hbefore =>
        split
        next hdef =>
          split
          next => refine ⟨?_, ?_, ?_⟩ <;> first | omega | (dsimp only; omega)
          next =>
            refine ⟨?_, ?_, ?_⟩ <;>
              simp only [applySpacers_start, applySpacers_stop, applySpacers_items] <;>
              first | omega | (dsimp only; omega)
        next hdef =>
          split
          next => refine ⟨?_, ?_, ?_⟩ <;> first | omega | (dsimp only; omega)
          next =>
            refine ⟨?_, ?_, ?_⟩ <;>
              simp only [applySpacers_start, applySpacers_stop, applySpacers_items] <;>
              first | omega | (dsimp only; omega)

/-!
### Symbolic evaluation of the C2 seeding scenario

Over a sequence of `n ≥ 40` truthy items, all measuring exactly 50
pixels, the initial seed from scroll offset 0 is computed in closed
form: the start scan stops at index 0 and `_expandDown` consumes two
whole batches of 20.
-/

lemma renderItemsFrag_replicate (n : ℕ) :
    ∀ (k s : ℕ), s + k ≤ n →
      renderItemsFrag (id : Bool → Bool) (fun _ => 50) (List.replicate n true) s (s + k) =
        (List.range' s k).map (fun i => (i, 50)) := by
  intro k
  induction k with
  | zero =>
    intro s hs
    simp [renderItemsFrag]
  | succ m ih =>
    intro s hs
    unfold renderItemsFrag
    rw [show s + (m + 1) - s = m + 1 from by omega]
    rw [List.range'_succ]
    simp only [List.filterMap_cons]
    have hget : (List.replicate n true).get? s = some true := by
      rw [List.get?_eq_getElem?, List.getElem?_replicate, if_pos (by omega)]
    rw [hget]
    have ih2 := ih (s + 1) (by omega)
    unfold renderItemsFrag at ih2
    rw [show s + 1 + m - (s + 1) = m from by omega] at ih2
    rw [ih2]
    simp

lemma measureRange_replicate (n k s : ℕ) (h : s + k ≤ n) :
    measureRange (id : Bool → Bool) (fun _ => 50) (List.replicate n true) s (s + k) =
      50 * k := by
  unfold measureRange
  rw [renderItemsFrag_replicate n k s h, List.map_map]
  have hsum : ∀ l : List ℕ, (l.map (fun _ => (50 : ℕ))).sum = 50 * l.length := by
    intro l
    induction l with
    | nil => simp
    | cons a t iht => simp [iht]; omega
  calc ((List.range' s k).map (Prod.snd ∘ fun i => (i, 50))).sum
      = ((List.range' s k).map (fun _ => (50 : ℕ))).sum := rfl
    _ = 50 * (List.range' s k).length := hsum _
    _ = 50 * k := by rw [List.length_range']

lemma findStartIndexByRendering_zero (bs : ℕ) (hm : ℕ → ℕ) (len : ℕ)
    (hlen : 0 < len) (hbs : 0 < bs) (hh : 0 < hm 0) :
    findStartIndexByRendering bs hm len 0 = 0 := by
  unfold findStartIndexByRendering
  obtain ⟨m, rfl⟩ : ∃ m, len = m + 1 := ⟨len - 1, by omega⟩
  simp only [findStartGo]
  rw [if_pos ⟨hlen, hbs⟩]
  obtain ⟨t, ht⟩ : ∃ t, min (0 + bs) (m + 1) - 0 = t + 1 :=
    ⟨min (0 + bs) (m + 1) - 1, by omega⟩
  rw [ht]
  simp only [findInBatch]
  rw [if_pos (by omega)]

lemma expandDownGo_succ (bs : ℕ) (mh : ℕ → ℕ → ℕ) (len target gas e acc : ℕ) :
    expandDownGo bs mh len target (gas + 1) e acc =
      if e < len ∧ acc < target ∧ 0 < bs then
        ((expandDownGo bs mh len target gas (min (e + bs) len)
            (acc + mh e (min (e + bs) len))).1,
         (expandDownGo bs mh len target gas (min (e + bs) len)
            (acc + mh e (min (e + bs) len))).2.1,
         (expandDownGo bs mh len target gas (min (e + bs) len)
            (acc + mh e (min (e + bs) len))).2.2 + 1)
      else (e, acc, 0) := rfl

lemma expandDown_c2 (k : ℕ) :
    expandDown 20 (measureRange (id : Bool → Bool) (fun _ => 50)
      (List.replicate (k + 40) true)) (k + 40) 0 1800 = (40, 2000, 2) := by
  unfold expandDown
  rw [show (k + 40) - 0 = (k + 39) + 1 from rfl, expandDownGo_succ]
  rw [if_pos (by omega : (0 : ℕ) < k + 40 ∧ (0 : ℕ) < 1800 ∧ (0 : ℕ) < 20)]
  rw [show min (0 + 20) (k + 40) = 20 from by omega]
  rw [show measureRange (id : Bool → Bool) (fun _ => 50)
        (List.replicate (k + 40) true) 0 20 = 1000 from by
      have := measureRange_replicate (k + 40) 20 0 (by omega)
      simpa using this]
  rw [show k + 39 = (k + 38) + 1 from rfl, expandDownGo_succ]
  rw [if_pos (by omega : 20 < k + 40 ∧ 0 + 1000 < 1800 ∧ (0 : ℕ) < 20)]
  rw [show min (20 + 20) (k + 40) = 40 from by omega]
  rw [show measureRange (id : Bool → Bool) (fun _ => 50)
        (List.replicate (k + 40) true) 20 40 = 1000 from by
      have := measureRange_replicate (k + 40) 20 20 (by omega)
      simpa using this]
  rw [show k + 38 = (k + 37) + 1 from rfl, expandDownGo_succ]
  rw [if_neg (by omega : ¬(40 < k + 40 ∧ 0 + 1000 + 1000 < 1800 ∧ (0 : ℕ) < 20))]

lemma seed_window_replicate (n : ℕ) (hn : 40 ≤ n) :
    (updateVisibleItemsV3 cfgC2 hostC2 id (stC2n n)).renderedStartIndex = 0 ∧
    (updateVisibleItemsV3 cfgC2 hostC2 id (stC2n n)).renderedEndIndex = 40 := by
  obtain ⟨k, rfl⟩ : ∃ k, n = k + 40 := ⟨n - 40, by omega⟩
  unfold updateVisibleItemsV3 stC2n cfgC2 hostC2
  dsimp only
  rw [List.length_replicate]
  rw [if_neg (by omega : ¬(k + 40 = 0))]
  rw [if_pos rfl]
  rw [if_neg (by decide : ¬((false : Bool) = true))]
  unfold renderFromPositionV3
  simp only [applySpacers_start, applySpacers_stop]
  try dsimp only
  rw [List.length_replicate]
  rw [findStartIndexByRendering_zero 20 (fun _ => 50) (k + 40) (by omega)
    (by omega) (by norm_num)]
  rw [show (600 : ℕ) + 600 * 2 = 1800 from by norm_num]
  rw [expandDown_c2 k]
  constructor <;> rfl

/-!
## Claim theorems
-/

/-- Claim C1: for every seeded state of the v3 engine, the materialized
window satisfies `0 ≤ start ≤ end ≤ itemCount` (`WindowInv`), and every
window-mutating operation preserves it: seeding (`renderFromPosition`)
establishes the invariant on a nonempty sequence, downward expansion
(`_expandDown`), upward expansion (`_expandUp`), removal (`remove`, both
in-window and out-of-window) and `scrollToItem` (both the in-window
scroll and the discard-and-reseed path) preserve it. -/
theorem claim_C1_window_bounds_invariant :
    (∀ (α : Type) (cfg : Config) (host : Host) (truthy : α → Bool)
      (st : EngineState α) (sc : ℕ), st.items.length ≠ 0 →
      WindowInv (renderFromPositionV3 cfg host truthy st sc)) ∧
    (∀ (α : Type) (cfg : Config) (host : Host) (truthy : α → Bool)
      (st : EngineState α) (t : ℕ), WindowInv st →
      WindowInv (engineExpandDown cfg host truthy st t)) ∧
    (∀ (α : Type) (cfg : Config) (host : Host) (truthy : α → Bool)
      (st : EngineState α) (t : ℕ), WindowInv st →
      WindowInv (engineExpandUp cfg host truthy st t)) ∧
    (∀ (α : Type) (cfg : Config) (host : Host) (truthy : α → Bool)
      (st : EngineState α) (idx : ℤ), WindowInv st →
      WindowInv (removeV3 cfg host truthy st idx)) ∧
    (∀ (α : Type) (cfg : Config) (host : Host) (truthy : α → Bool)
      (st : EngineState α) (idx : ℤ) (ab : Bool), WindowInv st →
      WindowInv (scrollToItemV3 cfg host truthy st idx ab)) :=
  ⟨fun _ cfg host truthy st sc h =>
      windowInv_renderFromPositionV3 cfg host truthy st sc h,
   fun _ cfg host truthy st t h =>
      windowInv_engineExpandDown cfg host truthy st t h,
   fun _ cfg host truthy st t h =>
      windowInv_engineExpandUp cfg host truthy st t h,
   fun _ cfg host truthy st idx h =>
      windowInv_removeV3 cfg host truthy st idx h,
   fun _ cfg host truthy st idx ab h =>
      windowInv_scrollToItemV3 cfg host truthy st idx ab h⟩

/-- Witness for claim C1 at concrete inputs. -/
theorem claim_C1_window_bounds_invariant_witness :
    WindowInv (renderFromPositionV3 cfgEx hostEx id stEx 0) ∧
    WindowInv (engineExpandDown cfgEx hostEx id stEx 600) ∧
    WindowInv (engineExpandUp cfgEx hostEx id stEx 600) ∧
    WindowInv (removeV3 cfgEx hostEx id stEx 1) ∧
    WindowInv (scrollToItemV3 cfgEx hostEx id stEx 2 false) :=
  ⟨claim_C1_window_bounds_invariant.1 Bool cfgEx hostEx id stEx 0 (by decide),
   claim_C1_window_bounds_invariant.2.1 Bool cfgEx hostEx id stEx 600 (by decide),
   claim_C1_window_bounds_invariant.2.2.1 Bool cfgEx hostEx id stEx 600 (by decide),
   claim_C1_window_bounds_invariant.2.2.2.1 Bool cfgEx hostEx id stEx 1 (by decide),
   claim_C1_window_bounds_invariant.2.2.2.2 Bool cfgEx hostEx id stEx 2 false (by decide)⟩

/-- Claim C3: for every in-range index `i` (positive viewport extent and
positive batch size), `scrollToItem(i)` immediately followed by
`getVisibleRange()` yields a half-open range containing `i`, i.e.
`start ≤ i < end`, both when `i` was already materialized and when the
window is discarded and reseeded at `i`. -/
theorem claim_C3_scrollToItem_roundtrip (α : Type) (cfg : Config)
    (host : Host) (truthy : α → Bool) (st : EngineState α) (i : ℕ)
    (ab : Bool) (hi : i < st.items.length) (hc : 0 < host.containerH)
    (hbs : 0 < cfg.batchSize) :
    (getVisibleRangeV3 (scrollToItemV3 cfg host truthy st (i : ℤ) ab)).1 ≤ (i : ℤ) ∧
    (i : ℤ) < (getVisibleRangeV3 (scrollToItemV3 cfg host truthy st (i : ℤ) ab)).2.1 := by
  unfold scrollToItemV3
  rw [if_neg (by omega)]
  dsimp only
  rw [Int.toNat_natCast]
  split
  next hwin =>
    cases hfind : st.nodes.find? (fun n => n.1 == i) with
    | some nd =>
      unfold getVisibleRangeV3
      dsimp only
      rw [if_neg hwin.1]
      exact ⟨hwin.2.1, hwin.2.2⟩
    | none => exact scrollToItemReseed_visibleRange cfg host truthy st i ab hi hc hbs
  next hwin => exact scrollToItemReseed_visibleRange cfg host truthy st i ab hi hc hbs

/-- Witness for claim C3: a reseeding jump on a pre-seed state and the
returned visible range around index 0. -/
theorem claim_C3_scrollToItem_roundtrip_witness :
    (getVisibleRangeV3 (scrollToItemV3 cfgEx hostEx id stOne ((0 : ℕ) : ℤ) false)).1 ≤ ((0 : ℕ) : ℤ) ∧
    ((0 : ℕ) : ℤ) < (getVisibleRangeV3 (scrollToItemV3 cfgEx hostEx id stOne ((0 : ℕ) : ℤ) false)).2.1 :=
  claim_C3_scrollToItem_roundtrip Bool cfgEx hostEx id stOne 0 false
    (by decide) (by decide) (by decide)

/-- Claim C9: the downward-expansion loop, the upward-expansion loop and
the seeding scan all terminate for every measurement oracle (including
all-zero extents), window state and target height: running any of them
with extra gas beyond the window-derived bound changes nothing, and each
loop executes at most `⌈itemCount / batchSize⌉` iterations (for a
positive batch size; `(len + bs - 1) / bs` is the ceiling in ℕ). -/
theorem claim_C9_expansion_termination :
    (∀ (bs : ℕ) (mh : ℕ → ℕ → ℕ) (len e target extra : ℕ),
      expandDownGo bs mh len target (len - e + extra) e 0 =
        expandDown bs mh len e target) ∧
    (∀ (bs : ℕ) (mh : ℕ → ℕ → ℕ) (s target extra : ℕ),
      expandUpGo bs mh target (s + extra) s 0 = expandUp bs mh s target) ∧
    (∀ (bs : ℕ) (hm : ℕ → ℕ) (len scrollTop extra : ℕ),
      findStartGo bs hm len scrollTop (len + extra) 0 0 =
        findStartGo bs hm len scrollTop len 0 0) ∧
    (∀ (bs : ℕ) (mh : ℕ → ℕ → ℕ) (len e target : ℕ), 0 < bs →
      (expandDown bs mh len e target).2.2 ≤ (len + bs - 1) / bs) ∧
    (∀ (bs : ℕ) (mh : ℕ → ℕ → ℕ) (len s target : ℕ), 0 < bs → s ≤ len →
      (expandUp bs mh s target).2.2 ≤ (len + bs - 1) / bs) ∧
    (∀ (bs : ℕ) (hm : ℕ → ℕ) (len scrollTop : ℕ), 0 < bs →
      (findStartGo bs hm len scrollTop len 0 0).2 ≤ (len + bs - 1) / bs) := by
  refine ⟨?_, ?_, ?_, ?_, ?_, ?_⟩
  · intro bs mh len e target extra
    exact expandDownGo_gas_eq bs mh len target (len - e + extra) (len - e) e 0
      (by omega) (by omega)
  · intro bs mh s target extra
    exact expandUpGo_gas_eq bs mh target (s + extra) s s 0 (by omega) (by omega)
  · intro bs hm len sc extra
    exact findStartGo_gas_eq bs hm len sc (len + extra) len 0 0 (by omega) (by omega)
  · intro bs mh len e target hbs
    exact le_trans (expandDownGo_count_le bs mh len target (len - e) e 0)
      (Nat.div_le_div_right (by omega))
  · intro bs mh len s target hbs hs
    exact le_trans (expandUpGo_count_le bs mh target s s 0)
      (Nat.div_le_div_right (by omega))
  · intro bs hm len sc hbs
    exact le_trans (findStartGo_count_le bs hm len sc len 0 0)
      (Nat.div_le_div_right (by omega))

/-- Witness for claim C9 at concrete inputs: loops over 100 items with
batch size 10 and a zero-height oracle. -/
theorem claim_C9_expansion_termination_witness :
    (0 : ℕ) < 10 ∧ (35 : ℕ) ≤ 100 ∧
    (expandDown 10 (fun _ _ => 0) 100 0 1800).2.2 ≤ (100 + 10 - 1) / 10 ∧
    (expandUp 10 (fun _ _ => 0) 35 1800).2.2 ≤ (100 + 10 - 1) / 10 ∧
    (findStartGo 10 (fun _ => 0) 100 777 100 0 0).2 ≤ (100 + 10 - 1) / 10 :=
  ⟨by decide, by decide,
   claim_C9_expansion_termination.2.2.2.1 10 (fun _ _ => 0) 100 0 1800 (by decide),
   claim_C9_expansion_termination.2.2.2.2.1 10 (fun _ _ => 0) 100 35 1800
     (by decide) (by decide),
   claim_C9_expansion_termination.2.2.2.2.2 10 (fun _ => 0) 100 777 (by decide)⟩

/-- Claim C2 counterexample: in the spec scenario (100000 items, each
measuring exactly the estimated 50, `batchSize = 20`,
`bufferThreshold = 2`, `viewportExtent = 600`, seed from scroll offset 0)
the initial seed materializes the window `[0, 40)`, i.e. 40 items, not
the claimed `⌈600·(1+2)/50⌉ = 36`: `_expandDown` accumulates whole
batches of 20 and stops only once the accumulated height (2 batches =
2000px) reaches the 1800px target. -/
theorem claim_C2_seed_counterexample :
    (updateVisibleItemsV3 cfgC2 hostC2 id stC2).renderedEndIndex = 40 ∧
    ¬ (updateVisibleItemsV3 cfgC2 hostC2 id stC2).renderedEndIndex = 36 := by
  have h := (seed_window_replicate 100000 (by omega)).2
  exact ⟨h, by rw [show stC2 = stC2n 100000 from rfl, h]; decide⟩

/-- Claim C2 (amended): in the spec scenario the initial seed from scroll
offset 0 materializes the window `[0, 40)` — 40 items, the 1800px target
rounded up to whole `batchSize = 20` batches. -/
theorem claim_C2_seed_window :
    (updateVisibleItemsV3 cfgC2 hostC2 id stC2).renderedStartIndex = 0 ∧
    (updateVisibleItemsV3 cfgC2 hostC2 id stC2).renderedEndIndex = 40 :=
  seed_window_replicate 100000 (by omega)

/-- Claim C4 counterexample: `setItems` of the current (v3) engine does
NOT reset the scroll position to the start: from a state scrolled to
offset 100, replacing the items leaves `container.scrollTop` at 100. -/
theorem claim_C4_setItems_counterexample :
    (setItemsV3 cfgEx hostEx id stEx [true, true]).scrollTop = 100 ∧
    ¬ (setItemsV3 cfgEx hostEx id stEx [true, true]).scrollTop = 0 := by
  constructor <;> decide

/-- Claim C4 (amended): `setItems(items)` replaces the sequence, clears
the materialized window back to the pre-seed state (`-1` sentinel, empty
content container) before re-rendering, and — in the height-cache (v2)
variant — clears the Height Cache entirely; but the scroll position is
NOT reset to the start: with leading alignment the engine reseeds from
the current scroll offset, which is left unchanged (only the earliest,
v1, variant sets `scrollTop = 0`). -/
theorem claim_C4_setItems_postcondition :
    (∀ (α : Type) (st : EngineState α) (newItems : List α),
      (setItemsV3Core st newItems).items = newItems ∧
      (setItemsV3Core st newItems).renderedStartIndex = -1 ∧
      (setItemsV3Core st newItems).renderedEndIndex = -1 ∧
      (setItemsV3Core st newItems).nodes = [] ∧
      (setItemsV3Core st newItems).scrollTop = st.scrollTop) ∧
    (∀ (α : Type) (bt bs ch : ℕ) (hm : ℕ → ℕ) (truthy : α → Bool)
      (st : EngineState α) (newItems : List α),
      (setItemsV3 ⟨bt, false, bs⟩ ⟨ch, hm⟩ truthy st newItems).scrollTop =
        st.scrollTop) ∧
    (∀ (β : Type) (st : StoreV2 β) (newItems : List β) (j : ℕ),
      (setItemsV2 st newItems).itemHeights j = none ∧
      (setItemsV2 st newItems).items = newItems) := by
  refine ⟨?_, ?_, ?_⟩
  · intro α st newItems
    exact ⟨rfl, rfl, rfl, rfl, rfl⟩
  · intro α bt bs ch hm truthy st newItems
    unfold setItemsV3
    exact updateVisibleItemsV3_scrollTop ⟨bt, false, bs⟩ ⟨ch, hm⟩ truthy _ rfl
  · intro β st newItems j
    exact ⟨rfl, rfl⟩

/-- Claim C5 counterexample: `insert` with an out-of-range index is NOT a
silent no-op: on a one-item sequence, `insert(5, item)` clamps the index
to the end and appends the item, changing the sequence. -/
theorem claim_C5_insert_counterexample :
    (insertV3 cfgEx hostEx id stOne 5 true).items = [true, true] ∧
    ¬ (insertV3 cfgEx hostEx id stOne 5 true).items = stOne.items := by
  constructor <;> decide

/-- Claim C5 (amended): for an out-of-range index, `setItem`, `remove`
and `scrollToItem` are silent no-ops that leave the whole engine state
(sequence, window, mounted nodes, spacers and scroll offset) unchanged
and throw nothing; `insert`, however, CLAMPS the index into
`[0, itemCount]` and performs the insertion there (for a truthy item),
so it is not a no-op. -/
theorem claim_C5_out_of_range (α : Type) (cfg : Config) (host : Host)
    (truthy : α → Bool) (st : EngineState α) (idx : ℤ) (x : α) (ab : Bool)
    (hout : idx < 0 ∨ (st.items.length : ℤ) ≤ idx) :
    setItemV3 cfg host truthy st idx x = st ∧
    removeV3 cfg host truthy st idx = st ∧
    scrollToItemV3 cfg host truthy st idx ab = st ∧
    (truthy x = true →
      (insertV3 cfg host truthy st idx x).items =
        st.items.insertIdx (max 0 (min idx (st.items.length : ℤ))).toNat x) := by
  refine ⟨?_, ?_, ?_, ?_⟩
  · unfold setItemV3
    rw [if_pos hout]
  · unfold removeV3
    rw [if_pos hout]
  · unfold scrollToItemV3
    rw [if_pos hout]
  · intro htr
    unfold insertV3
    rw [if_neg (by simp [htr])]
    dsimp only
    split
    · rfl
    · rw [updateVisibleItemsV3_items]

/-- Witness for claim C5 at concrete inputs: index 7 on a three-item
sequence. -/
theorem claim_C5_out_of_range_witness :
    setItemV3 cfgEx hostEx id stEx 7 true = stEx ∧
    removeV3 cfgEx hostEx id stEx 7 = stEx ∧
    scrollToItemV3 cfgEx hostEx id stEx 7 false = stEx ∧
    (insertV3 cfgEx hostEx id stEx 7 true).items =
      stEx.items.insertIdx (max 0 (min 7 (stEx.items.length : ℤ))).toNat true :=
  ⟨(claim_C5_out_of_range Bool cfgEx hostEx id stEx 7 true false (by decide)).1,
   (claim_C5_out_of_range Bool cfgEx hostEx id stEx 7 true false (by decide)).2.1,
   (claim_C5_out_of_range Bool cfgEx hostEx id stEx 7 true false (by decide)).2.2.1,
   (claim_C5_out_of_range Bool cfgEx hostEx id stEx 7 true false (by decide)).2.2.2 rfl⟩

/-- Claim C6: the Height Cache (v2) follows the measured-first /
estimate-fallback policy: a write of a zero or negative measured extent
is rejected, keeping the cache unchanged (`measureHeights` stores only
`if (height > 0)`); a positive write is stored; `get` returns the cached
measured extent when a positive one exists and `estimatedItemHeight`
otherwise, so after a rejected write `get` keeps returning the prior
value or the estimate. -/
theorem claim_C6_height_cache_policy (c : HeightCache) (i j : ℕ) (h est : ℤ) :
    (h ≤ 0 → measureSet c i h = c) ∧
    (0 < h → measureSet c i h i = some h) ∧
    (c j = none → cacheGet est c j = est) ∧
    (∀ v : ℤ, c j = some v → 0 < v → cacheGet est c j = v) ∧
    (h ≤ 0 → cacheGet est (measureSet c i h) i = cacheGet est c i) := by
  refine ⟨?_, ?_, ?_, ?_, ?_⟩
  · intro hle
    unfold measureSet
    rw [if_neg (by omega)]
  · intro hpos
    unfold measureSet
    rw [if_pos hpos]
    by_cases hc : c i = some h
    · rw [if_pos hc]
      exact hc
    · rw [if_neg hc]
      simp
  · intro hcn
    unfold cacheGet
    rw [hcn]
  · intro v hcv hv
    unfold cacheGet
    rw [hcv]
    dsimp only
    rw [if_neg (by omega)]
  · intro hle
    unfold measureSet
    rw [if_neg (by omega)]

/-- Witness for claim C6 at a concrete one-entry cache. -/
theorem claim_C6_height_cache_policy_witness :
    measureSet cW 1 (-5) = cW ∧
    measureSet cW 1 5 1 = some 5 ∧
    cacheGet 50 cW 3 = 50 ∧
    cacheGet 50 cW 0 = 7 ∧
    cacheGet 50 (measureSet cW 1 (-5)) 1 = cacheGet 50 cW 1 :=
  ⟨(claim_C6_height_cache_policy cW 1 3 (-5) 50).1 (by norm_num),
   (claim_C6_height_cache_policy cW 1 3 5 50).2.1 (by norm_num),
   (claim_C6_height_cache_policy cW 1 3 (-5) 50).2.2.1 rfl,
   (claim_C6_height_cache_policy cW 1 0 (-5) 50).2.2.2.1 7 rfl (by norm_num),
   (claim_C6_height_cache_policy cW 1 3 (-5) 50).2.2.2.2 (by norm_num)⟩

/-- Claim C7: index-shift bookkeeping of the v2 Item Store.  After
`insertItem` at a valid position `k`, every cached height previously at
an index `≥ k` is found at `index + 1` and every entry below `k` is
unchanged; after `remove` at an in-range `k`, the entry at `k` is
dropped and every entry above shifts down by one (queried at `j ≥ k`,
the new cache returns the old entry of `j + 1`).  Consequently
`insertItem(k, x)` immediately followed by `remove(k)` restores both the
original sequence and the original cache contents. -/
theorem claim_C7_index_shift_bookkeeping (β : Type) (st : StoreV2 β)
    (k : ℕ) (x : β) (hk : k ≤ st.items.length) :
    (∀ j, j < k →
      (insertItemV2 st (k : ℤ) x).itemHeights j = st.itemHeights j) ∧
    (∀ j, k ≤ j →
      (insertItemV2 st (k : ℤ) x).itemHeights (j + 1) = st.itemHeights j) ∧
    (k < st.items.length →
      (∀ j, j < k →
        (removeItemV2 st (k : ℤ)).itemHeights j = st.itemHeights j) ∧
      (∀ j, k ≤ j →
        (removeItemV2 st (k : ℤ)).itemHeights j = st.itemHeights (j + 1))) ∧
    (removeItemV2 (insertItemV2 st (k : ℤ) x) (k : ℤ)).items = st.items ∧
    (∀ j, (removeItemV2 (insertItemV2 st (k : ℤ) x) (k : ℤ)).itemHeights j =
      st.itemHeights j) := by
  have ha : (max 0 (min (k : ℤ) (st.items.length : ℤ))).toNat = k := by omega
  have hins_items : (insertItemV2 st (k : ℤ) x).items = st.items.insertIdx k x := by
    unfold insertItemV2
    dsimp only
    rw [ha]
  have hins_h : (insertItemV2 st (k : ℤ) x).itemHeights = fun j =>
      if j < k then st.itemHeights j else if j = k then none
      else st.itemHeights (j - 1) := by
    unfold insertItemV2
    dsimp only
    rw [ha]
  have hlen1 : (insertItemV2 st (k : ℤ) x).items.length = st.items.length + 1 := by
    rw [hins_items]
    exact List.length_insertIdx k st.items hk
  refine ⟨?_, ?_, ?_, ?_, ?_⟩
  · intro j hj
    rw [hins_h]
    dsimp only
    rw [if_pos hj]
  · intro j hj
    rw [hins_h]
    dsimp only
    rw [if_neg (by omega), if_neg (by omega), Nat.add_sub_cancel]
  · intro hklt
    constructor
    · intro j hj
      unfold removeItemV2
      rw [if_neg (by omega)]
      dsimp only
      rw [Int.toNat_natCast, if_pos hj]
    · intro j hj
      unfold removeItemV2
      rw [if_neg (by omega)]
      dsimp only
      rw [Int.toNat_natCast, if_neg (by omega)]
  · unfold removeItemV2
    rw [if_neg (by rw [hlen1]; omega)]
    dsimp only
    rw [Int.toNat_natCast, hins_items]
    exact List.eraseIdx_insertIdx k st.items
  · intro j
    unfold removeItemV2
    rw [if_neg (by rw [hlen1]; omega)]
    dsimp only
    rw [Int.toNat_natCast, hins_h]
    by_cases hj : j < k
    · rw [if_pos hj]
      dsimp only
      rw [if_pos hj]
    · rw [if_neg hj]
      dsimp only
      rw [if_neg (by omega), if_neg (by omega), Nat.add_sub_cancel]

/-- Witness for claim C7 on a three-item store with two cached
heights. -/
theorem claim_C7_index_shift_bookkeeping_witness :
    (insertItemV2 stV2Ex ((1 : ℕ) : ℤ) true).itemHeights 0 =
      stV2Ex.itemHeights 0 ∧
    (insertItemV2 stV2Ex ((1 : ℕ) : ℤ) true).itemHeights 2 =
      stV2Ex.itemHeights 1 ∧
    (removeItemV2 (insertItemV2 stV2Ex ((1 : ℕ) : ℤ) true) ((1 : ℕ) : ℤ)).items =
      stV2Ex.items ∧
    (removeItemV2 (insertItemV2 stV2Ex ((1 : ℕ) : ℤ) true) ((1 : ℕ) : ℤ)).itemHeights 1 =
      stV2Ex.itemHeights 1 :=
  ⟨(claim_C7_index_shift_bookkeeping Bool stV2Ex 1 true (by decide)).1 0 (by decide),
   (claim_C7_index_shift_bookkeeping Bool stV2Ex 1 true (by decide)).2.1 1 (by decide),
   (claim_C7_index_shift_bookkeeping Bool stV2Ex 1 true (by decide)).2.2.2.1,
   (claim_C7_index_shift_bookkeeping Bool stV2Ex 1 true (by decide)).2.2.2.2 1⟩

/-- Claim C8 counterexample: with the default leading alignment, a fully
rendered window (`start = 0`, `end = itemCount = 1`) whose materialized
extent (50px) is smaller than the viewport (600px) gets NO lead padding:
`updateSpacers` sets both spacers to 0, not
`viewportExtent - materializedExtent = 550`.  The bottom-hugging
adjustment in the source is guarded by `align === 'bottom'`. -/
theorem claim_C8_spacer_counterexample :
    updateSpacersCalc false 600 1 0 1 50 = (0, 0) ∧
    ¬ (updateSpacersCalc false 600 1 0 1 50).1 = 600 - 50 := by
  constructor <;> decide

/-- Claim C8 (amended): on every spacer-update pass with a positive
viewport extent, outside the bottom-alignment special case the lead
spacer is the constant `2 · viewportExtent` exactly when unmaterialized
content exists before the window (`start > 0`, else 0) and the trail
spacer is `2 · viewportExtent` exactly when `end < itemCount` (else 0);
the bottom-hugging lead padding `viewportExtent - materializedExtent`
(with trail 0) applies only when alignment is trailing
(`align: 'bottom'`) AND `start = 0 ∧ end = itemCount` on a nonempty
sequence with materialized extent below the viewport; in that mode with
extent at least the viewport both spacers are 0. -/
theorem claim_C8_spacer_computation (ab : Bool) (ch len : ℕ) (s e : ℤ)
    (contentH : ℕ) (hch : 0 < ch) :
    (¬(ab = true ∧ s = 0 ∧ e = (len : ℤ) ∧ 0 < len) →
      (updateSpacersCalc ab ch len s e contentH).1 =
        (if 0 < s then ch * 2 else 0) ∧
      (updateSpacersCalc ab ch len s e contentH).2 =
        (if e < (len : ℤ) then ch * 2 else 0)) ∧
    (ab = true → s = 0 → e = (len : ℤ) → 0 < len → contentH < ch →
      updateSpacersCalc ab ch len s e contentH = (ch - contentH, 0)) ∧
    (ab = true → s = 0 → e = (len : ℤ) → 0 < len → ch ≤ contentH →
      updateSpacersCalc ab ch len s e contentH = (0, 0)) := by
  simp only [updateSpacersCalc]
  rw [if_neg (by omega : ¬ ch = 0)]
  refine ⟨?_, ?_, ?_⟩
  · intro hno
    rw [if_neg hno]
    exact ⟨rfl, rfl⟩
  · intro h1 h2 h3 h4 h5
    rw [if_pos ⟨h1, h2, h3, h4⟩, if_pos h5]
  · intro h1 h2 h3 h4 h5
    rw [if_pos ⟨h1, h2, h3, h4⟩, if_neg (by omega)]

/-- Witness for claim C8: a mid-sequence window in leading alignment and
the two bottom-alignment cases. -/
theorem claim_C8_spacer_computation_witness :
    ((updateSpacersCalc false 600 10 2 5 400).1 =
       (if (0 : ℤ) < 2 then 600 * 2 else 0) ∧
     (updateSpacersCalc false 600 10 2 5 400).2 =
       (if (5 : ℤ) < ((10 : ℕ) : ℤ) then 600 * 2 else 0)) ∧
    updateSpacersCalc true 600 1 0 1 50 = (600 - 50, 0) ∧
    updateSpacersCalc true 600 1 0 1 700 = (0, 0) :=
  ⟨(claim_C8_spacer_computation false 600 10 2 5 400 (by decide)).1 (by decide),
   (claim_C8_spacer_computation true 600 1 0 1 50 (by decide)).2.1 rfl rfl
     (by decide) (by decide) (by decide),
   (claim_C8_spacer_computation true 600 1 0 1 700 (by decide)).2.2 rfl rfl
     (by decide) (by decide) (by decide)⟩

/-- Claim C10: `insert(index, item)` with a falsy item is a silent no-op
leaving the whole engine state (sequence, window, nodes, scroll)
unchanged (`if (!item) return;`), and during batch materialization
`_renderItems` skips any falsy item already in the sequence
(`if (!item) continue;`), so the produced fragment contains no node with
that item's index. -/
theorem claim_C10_falsy_item_handling (α : Type) (cfg : Config)
    (host : Host) (truthy : α → Bool) (st : EngineState α) (idx : ℤ)
    (x : α) (items : List α) (s e i : ℕ) (hm2 : ℕ → ℕ)
    (hx : truthy x = false)
    (hitem : ∀ y, items.get? i = some y → truthy y = false) :
    insertV3 cfg host truthy st idx x = st ∧
    ∀ n ∈ renderItemsFrag truthy hm2 items s e, n.1 ≠ i := by
  constructor
  · unfold insertV3
    rw [if_pos hx]
  · intro n hn
    unfold renderItemsFrag at hn
    rw [List.mem_filterMap] at hn
    obtain ⟨j, hj, hmatch⟩ := hn
    cases hget : items.get? j with
    | none =>
      rw [hget] at hmatch
      exact absurd hmatch (by simp)
    | some y =>
      rw [hget] at hmatch
      dsimp only at hmatch
      by_cases hty : truthy y = true
      · rw [if_pos hty] at hmatch
        have h1 : (j, hm2 j) = n := Option.some.inj hmatch
        intro hni
        have h2 : j = i := by rw [← h1] at hni; exact hni
        exact absurd (hitem y (h2 ▸ hget)) (by simp [hty])
      · rw [if_neg hty] at hmatch
        exact absurd hmatch (by simp)

/-- Witness for claim C10: inserting the falsy item `false` is a no-op,
and rendering over `[true, false, true]` produces no node for index 1
(checked at the node `(0, 50)` of the fragment). -/
theorem claim_C10_falsy_item_handling_witness :
    insertV3 cfgEx hostEx id stEx 0 false = stEx ∧
    ((0 : ℕ), (50 : ℕ)).1 ≠ 1 :=
  ⟨(claim_C10_falsy_item_handling Bool cfgEx hostEx id stEx 0 false
      [true, false, true] 0 3 1 (fun _ => 50) (by decide) (by decide)).1,
   (claim_C10_falsy_item_handling Bool cfgEx hostEx id stEx 0 false
      [true, false, true] 0 3 1 (fun _ => 50) (by decide) (by decide)).2
     (0, 50) (by decide)⟩

end FastScrollView
